import Mathlib

/-!
Shallow embedding of the CRYPTOCARDS burn worker (`burn-worker.cjs`) and
verification of the specification's claims about it.

The embedding models the pure computations of the worker directly, and the
network-facing orchestration (`runBurnSwap`) as a function of an explicit
environment supplying the results of every network call, while collecting the
sequence of network calls made into a trace list.
-/

namespace BurnWorker

/-- Ledger addresses: base58 named addresses, or program-derived addresses.
The only program-derived address the worker builds is the associated token
address obtained from `findProgramAddress` over the seeds
`[owner, tokenProgram, mint]` with the associated-token program, so the
derived form carries exactly those components. -/
inductive Addr
  | named (s : String)
  | pda (owner : Addr) (tokenProg : Addr) (mint : Addr) (assocProg : Addr)
  deriving DecidableEq, Repr

/-- `TOKEN_PROGRAM_ID` constant from the source. -/
def TOKEN_PROGRAM_ID : Addr := .named "TokenkegQfeZyiNwAJbNbGKPFXCWuBvf9Ss623VQ5DA"

/-- `TOKEN_2022_PROGRAM_ID` constant from the source. -/
def TOKEN_2022_PROGRAM_ID : Addr := .named "TokenzQdBNbLqP5VEhdkAS6EPFLC1PHnBqCXEpPxuEb"

/-- `ASSOCIATED_TOKEN_PROGRAM_ID` constant from the source. -/
def ASSOCIATED_TOKEN_PROGRAM_ID : Addr := .named "ATokenGPvbdGVxr1b2hvZbsiqW5xWH25efTNsLJA8knL"

/-- `SOL_MINT_ADDRESS` constant from the source. -/
def SOL_MINT_ADDRESS : String := "So11111111111111111111111111111111111111112"

/-- `web3.LAMPORTS_PER_SOL`. -/
def LAMPORTS_PER_SOL : ℕ := 1000000000

/-- `getAssociatedTokenAddress(mint, owner)`: derives the associated token
address via `findProgramAddress([owner, TOKEN_PROGRAM_ID, mint],
ASSOCIATED_TOKEN_PROGRAM_ID)`. -/
def getAssociatedTokenAddress (mint owner : Addr) : Addr :=
  .pda owner TOKEN_PROGRAM_ID mint ASSOCIATED_TOKEN_PROGRAM_ID

/-- The loop body of `u64ToBufferLE`: each iteration emits the low byte
(`n & 0xff`) and shifts (`n >>= 8n`); the counter is the number of
remaining iterations. -/
def u64ByteLoop (n : ℕ) : ℕ → List ℕ
  | 0 => []
  | i + 1 => n % 256 :: u64ByteLoop (n / 256) i

/-- `u64ToBufferLE(nBig)`: an 8-byte little-endian buffer of the amount. -/
def u64ToBufferLE (nBig : ℕ) : List ℕ :=
  u64ByteLoop nBig 8

/-- Little-endian decoding of a byte list (the mathematical inverse used to
state round-trip properties of `u64ToBufferLE`). -/
def decodeLE : List ℕ → ℕ
  | [] => 0
  | b :: rest => b + 256 * decodeLE rest

/-- An account reference inside a transaction instruction
(`{ pubkey, isSigner, isWritable }`). -/
structure AccountMeta where
  pubkey : Addr
  isSigner : Bool
  isWritable : Bool
  deriving DecidableEq, Repr

/-- `web3.TransactionInstruction`: program id, account list, raw data bytes. -/
structure TransactionInstruction where
  programId : Addr
  keys : List AccountMeta
  data : List ℕ
  deriving DecidableEq, Repr

/-- `makeBurnInstruction({tokenAccount, mint, owner, amountRaw})`:
SPL Token burn instruction, tag byte 8 followed by the amount as u64 LE,
accounts `[tokenAccount (writable), mint (writable), owner (signer)]`. -/
def makeBurnInstruction (tokenAccount mint owner : Addr) (amountRaw : ℕ) :
    TransactionInstruction where
  programId := TOKEN_PROGRAM_ID
  keys := [⟨tokenAccount, false, true⟩, ⟨mint, false, true⟩, ⟨owner, true, false⟩]
  data := 8 :: u64ToBufferLE amountRaw

theorem u64ByteLoop_length : ∀ (k n : ℕ), (u64ByteLoop n k).length = k
  | 0, _ => rfl
  | k + 1, n => by
      simp only [u64ByteLoop, List.length_cons, u64ByteLoop_length k (n / 256)]

theorem decodeLE_u64ByteLoop : ∀ (k n : ℕ), decodeLE (u64ByteLoop n k) = n % 256 ^ k
  | 0, n => by simp [u64ByteLoop, decodeLE, Nat.mod_one]
  | k + 1, n => by
      have ih := decodeLE_u64ByteLoop k (n / 256)
      have hp : (256 : ℕ) ^ (k + 1) = 256 * 256 ^ k := by ring
      simp only [u64ByteLoop, decodeLE, ih, hp]
      have h1 : n % (256 * 256 ^ k) / 256 = n / 256 % 256 ^ k :=
        Nat.mod_mul_right_div_self n 256 (256 ^ k)
      have h2 : n % (256 * 256 ^ k) % 256 = n % 256 :=
        Nat.mod_mod_of_dvd n ⟨256 ^ k, rfl⟩
      have h3 : 256 * (n % (256 * 256 ^ k) / 256) + n % (256 * 256 ^ k) % 256
          = n % (256 * 256 ^ k) := Nat.div_add_mod _ 256
      omega

theorem pow_256_8 : (256 : ℕ) ^ 8 = 2 ^ 64 := by norm_num

/-- C10: the little-endian amount encoder is total on all naturals, always
returns exactly 8 bytes, and the bytes decode (little-endian) to the input
modulo 2^64; in particular an amount of 2^64 + 5 is silently encoded the
same way as 5 rather than rejected. -/
theorem C10_u64_encoder_total_mod :
    (∀ n : ℕ, (u64ToBufferLE n).length = 8 ∧ decodeLE (u64ToBufferLE n) = n % 2 ^ 64) ∧
    u64ToBufferLE (2 ^ 64 + 5) = u64ToBufferLE 5 := by
  constructor
  · intro n
    refine ⟨u64ByteLoop_length 8 n, ?_⟩
    rw [u64ToBufferLE, decodeLE_u64ByteLoop 8 n, pow_256_8]
  · decide

/-- C5: for every `rawAmount < 2^64`, the burn instruction's data is exactly
9 bytes, the first byte is the fixed burn tag 8, the next 8 bytes decode
(little-endian) back to `rawAmount`, and the accounts are, in order, the
token account (writable, non-signer), the mint (writable, non-signer) and
the owner (signer, non-writable). -/
theorem C5_burn_instruction_encoding (tokenAccount mint owner : Addr)
    (rawAmount : ℕ) (h : rawAmount < 2 ^ 64) :
    (makeBurnInstruction tokenAccount mint owner rawAmount).data.length = 9 ∧
    (makeBurnInstruction tokenAccount mint owner rawAmount).data.head? = some 8 ∧
    decodeLE (makeBurnInstruction tokenAccount mint owner rawAmount).data.tail = rawAmount ∧
    (makeBurnInstruction tokenAccount mint owner rawAmount).keys =
      [⟨tokenAccount, false, true⟩, ⟨mint, false, true⟩, ⟨owner, true, false⟩] := by
  refine ⟨?_, rfl, ?_, rfl⟩
  · simp [makeBurnInstruction, u64ToBufferLE, u64ByteLoop_length]
  · show decodeLE (u64ToBufferLE rawAmount) = rawAmount
    rw [u64ToBufferLE, decodeLE_u64ByteLoop 8 rawAmount, pow_256_8, Nat.mod_eq_of_lt h]

/-- Witness for C5 at `rawAmount = 1234`. -/
theorem C5_burn_instruction_encoding_witness :
    1234 < 2 ^ 64 ∧
    ((makeBurnInstruction (.named "tokenAcc") (.named "mintAcc") (.named "ownerAcc") 1234).data.length = 9 ∧
    (makeBurnInstruction (.named "tokenAcc") (.named "mintAcc") (.named "ownerAcc") 1234).data.head? = some 8 ∧
    decodeLE (makeBurnInstruction (.named "tokenAcc") (.named "mintAcc") (.named "ownerAcc") 1234).data.tail = 1234 ∧
    (makeBurnInstruction (.named "tokenAcc") (.named "mintAcc") (.named "ownerAcc") 1234).keys =
      [⟨.named "tokenAcc", false, true⟩, ⟨.named "mintAcc", false, true⟩,
        ⟨.named "ownerAcc", true, false⟩]) :=
  ⟨by norm_num,
    C5_burn_instruction_encoding (.named "tokenAcc") (.named "mintAcc") (.named "ownerAcc")
      1234 (by norm_num)⟩

/-! ### Safe-spend computation (lines 307-309 of `runBurnSwap`)

`feeReserveLamports = Math.floor(FEE_RESERVE_SOL * LAMPORTS_PER_SOL)`,
`spendableLamports = Math.max(0, lamports - feeReserveLamports)`,
`swapLamports = Math.floor(spendableLamports * SAFETY_FRACTION)`.
Numbers are modelled by exact rationals; the balance and reserve are integer
lamport quantities. -/

/-- The spend amount the worker computes before the native-coin swap:
`Math.floor(Math.max(0, lamports - feeReserveLamports) * SAFETY_FRACTION)`. -/
def computeSwapLamports (lamports feeReserveLamports : ℤ) (safetyFraction : ℚ) : ℤ :=
  Int.floor (((max 0 (lamports - feeReserveLamports) : ℤ) : ℚ) * safetyFraction)

/-- The spec's formula for the safe-spend amount:
`spendable = max(0, balance - reserve)`; `spendAmount = floor(spendable * safetyFraction)`,
read as exact arithmetic over the rationals. -/
def computeSpendableSpec (balance reserve : ℤ) (safetyFraction : ℚ) : ℤ :=
  Int.floor (max 0 ((balance : ℚ) - (reserve : ℚ)) * safetyFraction)

/-- C2: for every balance ≥ 0, reserve ≥ 0 and safety fraction in (0,1], the
spend amount computed before the native-coin swap equals
`floor(max(0, balance - reserve) * safetyFraction)`; at balance 1000000000,
reserve 10000000 and fraction 0.85 the result is exactly 841500000. -/
theorem C2_safe_spend_formula (balance reserve : ℤ) (safetyFraction : ℚ)
    (hb : 0 ≤ balance) (hr : 0 ≤ reserve)
    (hf0 : 0 < safetyFraction) (hf1 : safetyFraction ≤ 1) :
    computeSwapLamports balance reserve safetyFraction =
      computeSpendableSpec balance reserve safetyFraction ∧
    computeSwapLamports 1000000000 10000000 (85 / 100) = 841500000 := by
  constructor
  · unfold computeSwapLamports computeSpendableSpec
    congr 1
    push_cast
    rfl
  · unfold computeSwapLamports
    norm_num

/-- Witness for C2 at balance 1000000000, reserve 10000000, fraction 85/100. -/
theorem C2_safe_spend_formula_witness :
    ((0 : ℤ) ≤ 1000000000 ∧ (0 : ℤ) ≤ 10000000 ∧
      (0 : ℚ) < 85 / 100 ∧ (85 / 100 : ℚ) ≤ 1) ∧
    (computeSwapLamports 1000000000 10000000 (85 / 100) =
      computeSpendableSpec 1000000000 10000000 (85 / 100) ∧
    computeSwapLamports 1000000000 10000000 (85 / 100) = 841500000) :=
  ⟨⟨by norm_num, by norm_num, by norm_num, by norm_num⟩,
    C2_safe_spend_formula 1000000000 10000000 (85 / 100)
      (by norm_num) (by norm_num) (by norm_num) (by norm_num)⟩

/-- C3: for balance ≥ 0, reserve ≥ 0 and safety fraction in (0,1], the
safe-spend computation is non-negative, at most the balance, monotonically
non-decreasing in the balance and non-increasing in the reserve. -/
theorem C3_safe_spend_bounds_monotone (balance reserve balance' reserve' : ℤ)
    (safetyFraction : ℚ)
    (hb : 0 ≤ balance) (hr : 0 ≤ reserve)
    (hf0 : 0 < safetyFraction) (hf1 : safetyFraction ≤ 1)
    (hbb : balance ≤ balance') (hrr : reserve ≤ reserve') :
    0 ≤ computeSwapLamports balance reserve safetyFraction ∧
    computeSwapLamports balance reserve safetyFraction ≤ balance ∧
    computeSwapLamports balance reserve safetyFraction ≤
      computeSwapLamports balance' reserve safetyFraction ∧
    computeSwapLamports balance reserve' safetyFraction ≤
      computeSwapLamports balance reserve safetyFraction := by
  unfold computeSwapLamports
  have hf0' : (0 : ℚ) ≤ safetyFraction := le_of_lt hf0
  refine ⟨?_, ?_, ?_, ?_⟩
  · rw [Int.le_floor]
    push_cast
    have : (0 : ℚ) ≤ max 0 ((balance : ℚ) - (reserve : ℚ)) := le_max_left _ _
    positivity
  · have hx : ((max 0 (balance - reserve) : ℤ) : ℚ) * safetyFraction ≤ (balance : ℚ) := by
      have h1 : ((max 0 (balance - reserve) : ℤ) : ℚ) * safetyFraction ≤
          ((max 0 (balance - reserve) : ℤ) : ℚ) := by
        apply mul_le_of_le_one_right _ hf1
        push_cast
        exact le_max_left _ _
      have h2 : (max 0 (balance - reserve) : ℤ) ≤ balance := by omega
      calc ((max 0 (balance - reserve) : ℤ) : ℚ) * safetyFraction ≤ _ := h1
        _ ≤ (balance : ℚ) := by exact_mod_cast h2
    calc Int.floor (((max 0 (balance - reserve) : ℤ) : ℚ) * safetyFraction)
        ≤ Int.floor ((balance : ℚ)) := Int.floor_le_floor hx
      _ = balance := Int.floor_intCast balance
  · apply Int.floor_le_floor
    apply mul_le_mul_of_nonneg_right _ hf0'
    have : (max 0 (balance - reserve) : ℤ) ≤ max 0 (balance' - reserve) := by omega
    exact_mod_cast this
  · apply Int.floor_le_floor
    apply mul_le_mul_of_nonneg_right _ hf0'
    have : (max 0 (balance - reserve') : ℤ) ≤ max 0 (balance - reserve) := by omega
    exact_mod_cast this

/-- Witness for C3 at balance 10, reserve 3, larger balance 12, larger
reserve 5, fraction 1/2. -/
theorem C3_safe_spend_bounds_monotone_witness :
    ((0 : ℤ) ≤ 10 ∧ (0 : ℤ) ≤ 3 ∧ (0 : ℚ) < 1 / 2 ∧ (1 / 2 : ℚ) ≤ 1 ∧
      (10 : ℤ) ≤ 12 ∧ (3 : ℤ) ≤ 5) ∧
    (0 ≤ computeSwapLamports 10 3 (1 / 2) ∧
    computeSwapLamports 10 3 (1 / 2) ≤ 10 ∧
    computeSwapLamports 10 3 (1 / 2) ≤ computeSwapLamports 12 3 (1 / 2) ∧
    computeSwapLamports 10 5 (1 / 2) ≤ computeSwapLamports 10 3 (1 / 2)) :=
  ⟨⟨by norm_num, by norm_num, by norm_num, by norm_num, by norm_num, by norm_num⟩,
    C3_safe_spend_bounds_monotone 10 3 12 5 (1 / 2)
      (by norm_num) (by norm_num) (by norm_num) (by norm_num) (by norm_num) (by norm_num)⟩

/-! ### Orchestration (`runBurnSwap`)

The run is modelled as a pure function of a configuration and a network
environment.  The environment supplies the outcome of every network call the
code can make; the function returns the run result together with the ordered
trace of network calls issued. -/

/-- Configuration, from the module-level environment constants.
`secretPubkey` is the public address derived from `BURN_WALLET_SECRET` by
`getBurnWalletKeypair` (`none` when the secret is missing, not a JSON array,
or rejected by `Keypair.fromSecretKey`).  `thresholdFinite` models
`Number.isFinite(BURN_THRESHOLD_SOL)`. -/
structure Config where
  burnWallet : String
  cryptoMint : String
  thresholdFinite : Bool
  thresholdSol : ℚ
  feeReserveSol : ℚ
  safetyFraction : ℚ
  secretPubkey : Option String
  deriving Repr

/-- Outcome the environment assigns to one Jupiter swap leg: which step of
`doJupiterSwap` fails, or the signature on success; `confirmFail` means the
broadcast succeeded but `confirmTransaction` threw. -/
inductive LegOutcome
  | quoteFail
  | buildFail
  | sendFail
  | confirmFail (sig : String)
  | success (sig : String)
  deriving DecidableEq, Repr

/-- Outcome the environment assigns to the burn transaction submission. -/
inductive BurnOutcome
  | sendFail
  | confirmFail (sig : String)
  | success (sig : String)
  deriving DecidableEq, Repr

/-- A parsed token account as returned by
`getParsedTokenAccountsByOwner` (`account.data.parsed.info`). -/
structure TokenAccountInfo where
  pubkey : Addr
  mint : String
  amountRaw : ℕ
  decimals : ℕ
  deriving DecidableEq, Repr

/-- A holding produced by the inventory scanner (`getAllTokenAccounts`),
tagging the account with the token program it was found under. -/
structure TokenHolding where
  pubkey : Addr
  mint : String
  amountRaw : ℕ
  decimals : ℕ
  programId : Addr
  deriving DecidableEq, Repr

/-- Network environment: the response of every network call the run can
issue.  `tokenAccounts p = none` models `getParsedTokenAccountsByOwner`
throwing for program `p`; `ataBalance = none` models the
`getTokenAccountBalance(ata).catch(() => null)` path. -/
structure NetEnv where
  lamports : ℕ
  legOutcome : String → ℕ → LegOutcome
  tokenAccounts : Addr → Option (List TokenAccountInfo)
  ataBalance : Option ℕ
  blockhash : String
  burnOutcome : BurnOutcome

/-- One network call, for the run's call trace. -/
inductive NetCall
  | getBalance
  | quoteReq (inputMint : String) (amount : ℕ)
  | swapBuildReq (inputMint : String) (amount : ℕ)
  | sendTx (inputMint : String)
  | confirmTx (sig : String)
  | getTokenAccountsByOwner (programId : Addr)
  | getTokenAccountBalance (account : Addr)
  | getLatestBlockhash
  | sendBurnTx (ix : TransactionInstruction)
  | confirmBurnTx (sig : String)
  deriving DecidableEq, Repr

/-- Result of one `doJupiterSwap` call: `{ok: true, signature}` or
`{ok: false, step}`. -/
inductive SwapResult
  | ok (sig : String)
  | fail (step : String)
  deriving DecidableEq, Repr

/-- An entry pushed onto the run's `swaps` list:
`{inputMint, amount, signature}`. -/
structure SwapEntry where
  inputMint : String
  amount : ℕ
  signature : String
  deriving DecidableEq, Repr

/-- The value `runBurnSwap` returns. -/
inductive RunResult
  | configInvalid
  | noSecret
  | pubkeyMismatch (burnWallet secretPubkey : String)
  | belowThreshold (balanceSol thresholdSol : ℚ)
  | done (swaps : List SwapEntry) (burnedAmountRaw : ℕ) (burnSignature : Option String)
  deriving DecidableEq, Repr

/-- The swaps list of a completed run, when the run completed. -/
def resultSwaps : RunResult → Option (List SwapEntry)
  | .done s _ _ => some s
  | _ => none

/-- `doJupiterSwap({inputMint, outputMint, amount, ...})`: GET quote, POST
swap build, send the signed transaction, then confirm; a `confirmTransaction`
error is caught and logged, so a leg with uncertain confirmation still
returns `{ok: true, signature}`. -/
def doJupiterSwap (env : NetEnv) (inputMint : String) (amount : ℕ) :
    SwapResult × List NetCall :=
  match env.legOutcome inputMint amount with
  | .quoteFail => (.fail "quote", [.quoteReq inputMint amount])
  | .buildFail =>
      (.fail "swap_build", [.quoteReq inputMint amount, .swapBuildReq inputMint amount])
  | .sendFail =>
      (.fail "send",
        [.quoteReq inputMint amount, .swapBuildReq inputMint amount, .sendTx inputMint])
  | .confirmFail sig =>
      (.ok sig,
        [.quoteReq inputMint amount, .swapBuildReq inputMint amount, .sendTx inputMint,
          .confirmTx sig])
  | .success sig =>
      (.ok sig,
        [.quoteReq inputMint amount, .swapBuildReq inputMint amount, .sendTx inputMint,
          .confirmTx sig])

/-- One iteration of the program loop in `getAllTokenAccounts`: enumerate
the owner's token accounts under one program; an enumeration failure is
caught (logged) and contributes no holdings; accounts with a missing mint
or a zero amount are skipped. -/
def scanProgram (env : NetEnv) (programId : Addr) : List TokenHolding × List NetCall :=
  match env.tokenAccounts programId with
  | none => ([], [NetCall.getTokenAccountsByOwner programId])
  | some accts =>
      ((accts.filter
          (fun a => decide (a.mint ≠ "") && decide (a.amountRaw ≠ 0))).map
          (fun a => ⟨a.pubkey, a.mint, a.amountRaw, a.decimals, programId⟩),
        [NetCall.getTokenAccountsByOwner programId])

/-- `getAllTokenAccounts(ownerPubkey)`: enumerate token accounts under the
standard program and then the Token-2022 program, concatenating the
per-program results. -/
def getAllTokenAccounts (env : NetEnv) : List TokenHolding × List NetCall :=
  let s1 := scanProgram env TOKEN_PROGRAM_ID
  let s2 := scanProgram env TOKEN_2022_PROGRAM_ID
  (s1.1 ++ s2.1, s1.2 ++ s2.2)

/-- The native-coin leg (step 2 of `runBurnSwap`): compute the spend amount
and, when positive, swap it to the target mint; a successful leg is pushed
onto `swaps`, a failed leg is only logged. -/
def solLeg (cfg : Config) (env : NetEnv) : List SwapEntry × List NetCall :=
  if 0 < computeSwapLamports (env.lamports : ℤ)
      (Int.floor (cfg.feeReserveSol * (LAMPORTS_PER_SOL : ℚ))) cfg.safetyFraction then
    match doJupiterSwap env SOL_MINT_ADDRESS
        (computeSwapLamports (env.lamports : ℤ)
          (Int.floor (cfg.feeReserveSol * (LAMPORTS_PER_SOL : ℚ))) cfg.safetyFraction).toNat with
    | (.ok sig, trace) =>
        ([⟨SOL_MINT_ADDRESS,
            (computeSwapLamports (env.lamports : ℤ)
              (Int.floor (cfg.feeReserveSol * (LAMPORTS_PER_SOL : ℚ))) cfg.safetyFraction).toNat,
            sig⟩], trace)
    | (.fail _, trace) => ([], trace)
  else ([], [])

/-- One iteration of the token-leg loop (step 3 of `runBurnSwap`): skip the
target mint, the native pseudo-mint, empty mints and zero amounts; otherwise
attempt the swap, pushing onto `swaps` only on success. -/
def tokenSwapLeg (cfg : Config) (env : NetEnv) (ta : TokenHolding) :
    List SwapEntry × List NetCall :=
  if ta.mint = "" then ([], [])
  else if ta.mint = cfg.cryptoMint then ([], [])
  else if ta.mint = SOL_MINT_ADDRESS then ([], [])
  else if ta.amountRaw = 0 then ([], [])
  else
    match doJupiterSwap env ta.mint ta.amountRaw with
    | (.ok sig, trace) => ([⟨ta.mint, ta.amountRaw, sig⟩], trace)
    | (.fail _, trace) => ([], trace)

/-- The token-leg loop of step 3 of `runBurnSwap`, one `tokenSwapLeg` per
holding in order, concatenating entries and traces. -/
def tokenLegs (cfg : Config) (env : NetEnv) : List TokenHolding → List SwapEntry × List NetCall
  | [] => ([], [])
  | ta :: rest =>
      let leg := tokenSwapLeg cfg env ta
      let rest' := tokenLegs cfg env rest
      (leg.1 ++ rest'.1, leg.2 ++ rest'.2)

/-- Steps 2 and 3 of `runBurnSwap`: the native-coin leg followed by the
scan and the per-holding token legs, accumulating the `swaps` list. -/
def swapStage (cfg : Config) (env : NetEnv) : List SwapEntry × List NetCall :=
  let sol := solLeg cfg env
  let scan := getAllTokenAccounts env
  let tokens := tokenLegs cfg env scan.1
  (sol.1 ++ tokens.1, sol.2 ++ scan.2 ++ tokens.2)

/-- Step 4 of `runBurnSwap`: read the target-mint associated token account
balance; when positive, build the burn instruction, fetch a fresh blockhash,
submit the burn transaction and attempt confirmation.  A send failure is
caught by the surrounding try/catch and leaves `burnedAmountRaw = 0`,
`burnSignature = null`; a confirmation failure is caught and logged. -/
def burnStage (cfg : Config) (env : NetEnv) :
    (ℕ × Option String) × List NetCall :=
  let burnPubkey := Addr.named cfg.burnWallet
  let cryptoMint := Addr.named cfg.cryptoMint
  let ata := getAssociatedTokenAddress cryptoMint burnPubkey
  let trace0 := [NetCall.getTokenAccountBalance ata]
  match env.ataBalance with
  | none => ((0, none), trace0)
  | some amt =>
      if 0 < amt then
        let ix := makeBurnInstruction ata cryptoMint burnPubkey amt
        let trace1 := trace0 ++ [NetCall.getLatestBlockhash, NetCall.sendBurnTx ix]
        match env.burnOutcome with
        | .sendFail => ((0, none), trace1)
        | .confirmFail sig => ((amt, some sig), trace1 ++ [NetCall.confirmBurnTx sig])
        | .success sig => ((amt, some sig), trace1 ++ [NetCall.confirmBurnTx sig])
      else ((0, none), trace0)

/-- `runBurnSwap()`: config validation, keypair load and pubkey match check,
threshold gate on the native balance, then the swap stage and the burn
stage; the run returns `{ok: true, ...}` whenever it passes the threshold
gate, regardless of individual leg failures. -/
def runBurnSwap (cfg : Config) (env : NetEnv) : RunResult × List NetCall :=
  if cfg.burnWallet = "" ∨ cfg.cryptoMint = "" ∨ cfg.thresholdFinite = false ∨
      cfg.thresholdSol ≤ 0 then
    (.configInvalid, [])
  else
    match cfg.secretPubkey with
    | none => (.noSecret, [])
    | some pk =>
        if pk ≠ cfg.burnWallet then
          (.pubkeyMismatch cfg.burnWallet pk, [])
        else
          if (env.lamports : ℚ) / (LAMPORTS_PER_SOL : ℚ) < cfg.thresholdSol then
            (.belowThreshold ((env.lamports : ℚ) / (LAMPORTS_PER_SOL : ℚ)) cfg.thresholdSol,
              [.getBalance])
          else
            (.done (swapStage cfg env).1 (burnStage cfg env).1.1 (burnStage cfg env).1.2,
              [NetCall.getBalance] ++ (swapStage cfg env).2 ++ (burnStage cfg env).2)

/-- C4: whenever the run's configuration is valid, the signing key matches,
and the native-coin balance read at the start of the run is below the
threshold, the run terminates in the below-threshold state and its network
trace is exactly the single balance read — no quote, build, scan,
broadcast or burn call. -/
theorem C4_below_threshold_single_read (cfg : Config) (env : NetEnv)
    (hw : cfg.burnWallet ≠ "") (hm : cfg.cryptoMint ≠ "")
    (hfin : cfg.thresholdFinite = true) (ht : 0 < cfg.thresholdSol)
    (hsk : cfg.secretPubkey = some cfg.burnWallet)
    (hbal : (env.lamports : ℚ) / (LAMPORTS_PER_SOL : ℚ) < cfg.thresholdSol) :
    runBurnSwap cfg env =
      (.belowThreshold ((env.lamports : ℚ) / (LAMPORTS_PER_SOL : ℚ)) cfg.thresholdSol,
        [.getBalance]) := by
  have hcond : ¬(cfg.burnWallet = "" ∨ cfg.cryptoMint = "" ∨
      cfg.thresholdFinite = false ∨ cfg.thresholdSol ≤ 0) := by
    push_neg
    exact ⟨hw, hm, by simp [hfin], ht⟩
  unfold runBurnSwap
  rw [if_neg hcond, hsk]
  simp [hbal]

/-- C6: a configuration whose signing key's derived public address differs
from the configured wallet address makes the run fail with the key-mismatch
error before any network call: the network trace is empty. -/
theorem C6_key_mismatch_no_network (cfg : Config) (env : NetEnv) (pk : String)
    (hw : cfg.burnWallet ≠ "") (hm : cfg.cryptoMint ≠ "")
    (hfin : cfg.thresholdFinite = true) (ht : 0 < cfg.thresholdSol)
    (hsk : cfg.secretPubkey = some pk) (hne : pk ≠ cfg.burnWallet) :
    runBurnSwap cfg env = (.pubkeyMismatch cfg.burnWallet pk, []) := by
  have hcond : ¬(cfg.burnWallet = "" ∨ cfg.cryptoMint = "" ∨
      cfg.thresholdFinite = false ∨ cfg.thresholdSol ≤ 0) := by
    push_neg
    exact ⟨hw, hm, by simp [hfin], ht⟩
  unfold runBurnSwap
  rw [if_neg hcond, hsk]
  simp [hne]

/-- Baseline valid configuration used by concrete witnesses: wallet "W",
target mint "CC", threshold 0.02, no fee reserve, safety fraction 0.85,
secret deriving the matching address "W". -/
def cfgW : Config where
  burnWallet := "W"
  cryptoMint := "CC"
  thresholdFinite := true
  thresholdSol := 1 / 50
  feeReserveSol := 0
  safetyFraction := 17 / 20
  secretPubkey := some "W"

/-- An inert environment: balance 0.01 SOL, no token accounts, everything
failing if reached. -/
def envIdle : NetEnv where
  lamports := 10000000
  legOutcome := fun _ _ => .quoteFail
  tokenAccounts := fun _ => some []
  ataBalance := none
  blockhash := "bh"
  burnOutcome := .sendFail

/-- Witness for C4: balance 0.01 SOL against threshold 0.02. -/
theorem C4_below_threshold_single_read_witness :
    (cfgW.burnWallet ≠ "" ∧ cfgW.cryptoMint ≠ "" ∧ cfgW.thresholdFinite = true ∧
      0 < cfgW.thresholdSol ∧ cfgW.secretPubkey = some cfgW.burnWallet ∧
      (envIdle.lamports : ℚ) / (LAMPORTS_PER_SOL : ℚ) < cfgW.thresholdSol) ∧
    runBurnSwap cfgW envIdle =
      (.belowThreshold ((envIdle.lamports : ℚ) / (LAMPORTS_PER_SOL : ℚ)) cfgW.thresholdSol,
        [.getBalance]) :=
  ⟨⟨by decide, by decide, rfl, by norm_num [cfgW], rfl,
      by norm_num [cfgW, envIdle, LAMPORTS_PER_SOL]⟩,
    C4_below_threshold_single_read cfgW envIdle (by decide) (by decide) rfl
      (by norm_num [cfgW]) rfl (by norm_num [cfgW, envIdle, LAMPORTS_PER_SOL])⟩

/-- Configuration with a mismatching secret: the secret derives "X" while
the configured wallet address is "W". -/
def cfgMismatch : Config where
  burnWallet := "W"
  cryptoMint := "CC"
  thresholdFinite := true
  thresholdSol := 1 / 50
  feeReserveSol := 0
  safetyFraction := 17 / 20
  secretPubkey := some "X"

/-- Witness for C6: secret-derived address "X" against configured "W". -/
theorem C6_key_mismatch_no_network_witness :
    (cfgMismatch.burnWallet ≠ "" ∧ cfgMismatch.cryptoMint ≠ "" ∧
      cfgMismatch.thresholdFinite = true ∧ 0 < cfgMismatch.thresholdSol ∧
      cfgMismatch.secretPubkey = some "X" ∧ "X" ≠ cfgMismatch.burnWallet) ∧
    runBurnSwap cfgMismatch envIdle = (.pubkeyMismatch cfgMismatch.burnWallet "X", []) :=
  ⟨⟨by decide, by decide, rfl, by norm_num [cfgMismatch], rfl, by decide⟩,
    C6_key_mismatch_no_network cfgMismatch envIdle "X" (by decide) (by decide) rfl
      (by norm_num [cfgMismatch]) rfl (by decide)⟩

/-- Helper: a valid configuration falsifies the `config_invalid` guard. -/
theorem config_guard_false (cfg : Config)
    (hw : cfg.burnWallet ≠ "") (hm : cfg.cryptoMint ≠ "")
    (hfin : cfg.thresholdFinite = true) (ht : 0 < cfg.thresholdSol) :
    ¬(cfg.burnWallet = "" ∨ cfg.cryptoMint = "" ∨ cfg.thresholdFinite = false ∨
      cfg.thresholdSol ≤ 0) := by
  push_neg
  exact ⟨hw, hm, by simp [hfin], ht⟩

/-- Helper: a run with a valid configuration, a matching signing key and a
balance at or above the threshold completes: it performs the balance read,
the swap stage and the burn stage, and returns `done`. -/
theorem runBurnSwap_done (cfg : Config) (env : NetEnv)
    (hw : cfg.burnWallet ≠ "") (hm : cfg.cryptoMint ≠ "")
    (hfin : cfg.thresholdFinite = true) (ht : 0 < cfg.thresholdSol)
    (hsk : cfg.secretPubkey = some cfg.burnWallet)
    (hnb : ¬((env.lamports : ℚ) / (LAMPORTS_PER_SOL : ℚ) < cfg.thresholdSol)) :
    runBurnSwap cfg env =
      (.done (swapStage cfg env).1 (burnStage cfg env).1.1 (burnStage cfg env).1.2,
        [NetCall.getBalance] ++ (swapStage cfg env).2 ++ (burnStage cfg env).2) := by
  unfold runBurnSwap
  rw [if_neg (config_guard_false cfg hw hm hfin ht), hsk]
  simp [hnb]

/-! ### C1: partial-failure isolation of token swap legs -/

/-- Helper: in a run with a valid configuration whose native-coin leg is
skipped and whose scan yields three non-excluded holdings, with the quote
for the second failing and the other two legs succeeding, the swaps list
records exactly the two successful legs, while a quote request is issued
for every one of the three mints. -/
theorem run_three_holdings_one_fail (cfg : Config) (env : NetEnv)
    (h1 h2 h3 : TokenHolding) (s1 s3 : String)
    (hw : cfg.burnWallet ≠ "") (hm : cfg.cryptoMint ≠ "")
    (hfin : cfg.thresholdFinite = true) (ht : 0 < cfg.thresholdSol)
    (hsk : cfg.secretPubkey = some cfg.burnWallet)
    (hnb : ¬((env.lamports : ℚ) / (LAMPORTS_PER_SOL : ℚ) < cfg.thresholdSol))
    (hsol : computeSwapLamports (env.lamports : ℤ)
      (Int.floor (cfg.feeReserveSol * (LAMPORTS_PER_SOL : ℚ))) cfg.safetyFraction ≤ 0)
    (hholds : (getAllTokenAccounts env).1 = [h1, h2, h3])
    (he1 : h1.mint ≠ "" ∧ h1.mint ≠ cfg.cryptoMint ∧ h1.mint ≠ SOL_MINT_ADDRESS ∧ h1.amountRaw ≠ 0)
    (he2 : h2.mint ≠ "" ∧ h2.mint ≠ cfg.cryptoMint ∧ h2.mint ≠ SOL_MINT_ADDRESS ∧ h2.amountRaw ≠ 0)
    (he3 : h3.mint ≠ "" ∧ h3.mint ≠ cfg.cryptoMint ∧ h3.mint ≠ SOL_MINT_ADDRESS ∧ h3.amountRaw ≠ 0)
    (ho1 : env.legOutcome h1.mint h1.amountRaw = .success s1)
    (ho2 : env.legOutcome h2.mint h2.amountRaw = .quoteFail)
    (ho3 : env.legOutcome h3.mint h3.amountRaw = .success s3) :
    resultSwaps (runBurnSwap cfg env).1 =
      some [⟨h1.mint, h1.amountRaw, s1⟩, ⟨h3.mint, h3.amountRaw, s3⟩] ∧
    NetCall.quoteReq h1.mint h1.amountRaw ∈ (runBurnSwap cfg env).2 ∧
    NetCall.quoteReq h2.mint h2.amountRaw ∈ (runBurnSwap cfg env).2 ∧
    NetCall.quoteReq h3.mint h3.amountRaw ∈ (runBurnSwap cfg env).2 := by
  have hsolLeg : solLeg cfg env = ([], []) := by
    unfold solLeg
    rw [if_neg (not_lt.mpr hsol)]
  have hleg1 : tokenSwapLeg cfg env h1 =
      ([⟨h1.mint, h1.amountRaw, s1⟩],
        [.quoteReq h1.mint h1.amountRaw, .swapBuildReq h1.mint h1.amountRaw,
          .sendTx h1.mint, .confirmTx s1]) := by
    unfold tokenSwapLeg doJupiterSwap
    rw [if_neg he1.1, if_neg he1.2.1, if_neg he1.2.2.1, if_neg he1.2.2.2, ho1]
  have hleg2 : tokenSwapLeg cfg env h2 =
      ([], [.quoteReq h2.mint h2.amountRaw]) := by
    unfold tokenSwapLeg doJupiterSwap
    rw [if_neg he2.1, if_neg he2.2.1, if_neg he2.2.2.1, if_neg he2.2.2.2, ho2]
  have hleg3 : tokenSwapLeg cfg env h3 =
      ([⟨h3.mint, h3.amountRaw, s3⟩],
        [.quoteReq h3.mint h3.amountRaw, .swapBuildReq h3.mint h3.amountRaw,
          .sendTx h3.mint, .confirmTx s3]) := by
    unfold tokenSwapLeg doJupiterSwap
    rw [if_neg he3.1, if_neg he3.2.1, if_neg he3.2.2.1, if_neg he3.2.2.2, ho3]
  rw [runBurnSwap_done cfg env hw hm hfin ht hsk hnb]
  simp only [swapStage, hsolLeg, hholds, tokenLegs, hleg1, hleg2, hleg3]
  simp [resultSwaps, List.mem_append]

/-- Configuration for the C1 scenario: fee reserve equal to the whole
balance so the native-coin leg is skipped and only token legs run. -/
def cfgC1 : Config where
  burnWallet := "W"
  cryptoMint := "CC"
  thresholdFinite := true
  thresholdSol := 1 / 50
  feeReserveSol := 1 / 50
  safetyFraction := 17 / 20
  secretPubkey := some "W"

/-- Environment for the C1 scenario: three non-excluded holdings M1, M2, M3;
the quote for M2 fails, the other two legs succeed. -/
def envC1 : NetEnv where
  lamports := 20000000
  legOutcome := fun m _ =>
    if m = "M1" then .success "sig1"
    else if m = "M3" then .success "sig3"
    else .quoteFail
  tokenAccounts := fun p =>
    if p = TOKEN_PROGRAM_ID then
      some [⟨.named "A1", "M1", 10, 6⟩, ⟨.named "A2", "M2", 20, 6⟩, ⟨.named "A3", "M3", 30, 6⟩]
    else some []
  ataBalance := none
  blockhash := "bh"
  burnOutcome := .sendFail

theorem envC1_holdings : (getAllTokenAccounts envC1).1 =
    [⟨.named "A1", "M1", 10, 6, TOKEN_PROGRAM_ID⟩,
      ⟨.named "A2", "M2", 20, 6, TOKEN_PROGRAM_ID⟩,
      ⟨.named "A3", "M3", 30, 6, TOKEN_PROGRAM_ID⟩] := by
  decide

theorem cfgC1_nb : ¬((envC1.lamports : ℚ) / (LAMPORTS_PER_SOL : ℚ) < cfgC1.thresholdSol) := by
  norm_num [cfgC1, envC1, LAMPORTS_PER_SOL]

theorem cfgC1_sol : computeSwapLamports (envC1.lamports : ℤ)
    (Int.floor (cfgC1.feeReserveSol * (LAMPORTS_PER_SOL : ℚ))) cfgC1.safetyFraction ≤ 0 := by
  norm_num [cfgC1, envC1, LAMPORTS_PER_SOL, computeSwapLamports]

/-- C1 counterexample: with three non-excluded holdings and the quote for
the second failing, the other two legs run (a quote request is issued for
all three mints), but the run's swaps list has exactly 2 entries — the
successful legs only — not 3; the failed leg appears in no entry. -/
theorem C1_counterexample :
    resultSwaps (runBurnSwap cfgC1 envC1).1 =
      some [⟨"M1", 10, "sig1"⟩, ⟨"M3", 30, "sig3"⟩] ∧
    (resultSwaps (runBurnSwap cfgC1 envC1).1).map List.length = some 2 ∧
    NetCall.quoteReq "M2" 20 ∈ (runBurnSwap cfgC1 envC1).2 := by
  have h := run_three_holdings_one_fail cfgC1 envC1
    ⟨.named "A1", "M1", 10, 6, TOKEN_PROGRAM_ID⟩
    ⟨.named "A2", "M2", 20, 6, TOKEN_PROGRAM_ID⟩
    ⟨.named "A3", "M3", 30, 6, TOKEN_PROGRAM_ID⟩
    "sig1" "sig3"
    (by decide) (by decide) rfl (by norm_num [cfgC1]) rfl
    cfgC1_nb cfgC1_sol envC1_holdings
    ⟨by decide, by decide, by decide, by decide⟩
    ⟨by decide, by decide, by decide, by decide⟩
    ⟨by decide, by decide, by decide, by decide⟩
    (by decide) (by decide) (by decide)
  exact ⟨h.1, by rw [h.1]; rfl, h.2.2.1⟩

/-- C1 (amended): when the wallet holds three non-excluded token holdings
and the quote for the second one fails, the other two legs are still
attempted (a quote request is issued for every one of the three mints), but
the run's swaps list records only the two successful legs; the failed leg
appears in no entry. -/
theorem C1_partial_failure_isolation (cfg : Config) (env : NetEnv)
    (h1 h2 h3 : TokenHolding) (s1 s3 : String)
    (hw : cfg.burnWallet ≠ "") (hm : cfg.cryptoMint ≠ "")
    (hfin : cfg.thresholdFinite = true) (ht : 0 < cfg.thresholdSol)
    (hsk : cfg.secretPubkey = some cfg.burnWallet)
    (hnb : ¬((env.lamports : ℚ) / (LAMPORTS_PER_SOL : ℚ) < cfg.thresholdSol))
    (hsol : computeSwapLamports (env.lamports : ℤ)
      (Int.floor (cfg.feeReserveSol * (LAMPORTS_PER_SOL : ℚ))) cfg.safetyFraction ≤ 0)
    (hholds : (getAllTokenAccounts env).1 = [h1, h2, h3])
    (he1 : h1.mint ≠ "" ∧ h1.mint ≠ cfg.cryptoMint ∧ h1.mint ≠ SOL_MINT_ADDRESS ∧ h1.amountRaw ≠ 0)
    (he2 : h2.mint ≠ "" ∧ h2.mint ≠ cfg.cryptoMint ∧ h2.mint ≠ SOL_MINT_ADDRESS ∧ h2.amountRaw ≠ 0)
    (he3 : h3.mint ≠ "" ∧ h3.mint ≠ cfg.cryptoMint ∧ h3.mint ≠ SOL_MINT_ADDRESS ∧ h3.amountRaw ≠ 0)
    (ho1 : env.legOutcome h1.mint h1.amountRaw = .success s1)
    (ho2 : env.legOutcome h2.mint h2.amountRaw = .quoteFail)
    (ho3 : env.legOutcome h3.mint h3.amountRaw = .success s3) :
    resultSwaps (runBurnSwap cfg env).1 =
      some [⟨h1.mint, h1.amountRaw, s1⟩, ⟨h3.mint, h3.amountRaw, s3⟩] ∧
    NetCall.quoteReq h1.mint h1.amountRaw ∈ (runBurnSwap cfg env).2 ∧
    NetCall.quoteReq h2.mint h2.amountRaw ∈ (runBurnSwap cfg env).2 ∧
    NetCall.quoteReq h3.mint h3.amountRaw ∈ (runBurnSwap cfg env).2 :=
  run_three_holdings_one_fail cfg env h1 h2 h3 s1 s3 hw hm hfin ht hsk hnb hsol
    hholds he1 he2 he3 ho1 ho2 ho3

/-- Witness for C1 (amended), at the concrete C1 scenario. -/
theorem C1_partial_failure_isolation_witness :
    ((getAllTokenAccounts envC1).1 =
      [⟨.named "A1", "M1", 10, 6, TOKEN_PROGRAM_ID⟩,
        ⟨.named "A2", "M2", 20, 6, TOKEN_PROGRAM_ID⟩,
        ⟨.named "A3", "M3", 30, 6, TOKEN_PROGRAM_ID⟩] ∧
      envC1.legOutcome "M1" 10 = .success "sig1" ∧
      envC1.legOutcome "M2" 20 = .quoteFail ∧
      envC1.legOutcome "M3" 30 = .success "sig3") ∧
    (resultSwaps (runBurnSwap cfgC1 envC1).1 =
      some [⟨"M1", 10, "sig1"⟩, ⟨"M3", 30, "sig3"⟩] ∧
    NetCall.quoteReq "M1" 10 ∈ (runBurnSwap cfgC1 envC1).2 ∧
    NetCall.quoteReq "M2" 20 ∈ (runBurnSwap cfgC1 envC1).2 ∧
    NetCall.quoteReq "M3" 30 ∈ (runBurnSwap cfgC1 envC1).2) :=
  ⟨⟨envC1_holdings, by decide, by decide, by decide⟩,
    C1_partial_failure_isolation cfgC1 envC1
      ⟨.named "A1", "M1", 10, 6, TOKEN_PROGRAM_ID⟩
      ⟨.named "A2", "M2", 20, 6, TOKEN_PROGRAM_ID⟩
      ⟨.named "A3", "M3", 30, 6, TOKEN_PROGRAM_ID⟩
      "sig1" "sig3"
      (by decide) (by decide) rfl (by norm_num [cfgC1]) rfl
      cfgC1_nb cfgC1_sol envC1_holdings
      ⟨by decide, by decide, by decide, by decide⟩
      ⟨by decide, by decide, by decide, by decide⟩
      ⟨by decide, by decide, by decide, by decide⟩
      (by decide) (by decide) (by decide)⟩

/-! ### C7: the burn stage -/

/-- The associated token account the burn stage reads and burns:
the standard-token-program ATA of the target mint for the burn wallet. -/
def burnAta (cfg : Config) : Addr :=
  getAssociatedTokenAddress (Addr.named cfg.cryptoMint) (Addr.named cfg.burnWallet)

/-- Helper: the burn stage always reads the target ATA balance. -/
theorem mem_burnStage_balRead (cfg : Config) (env : NetEnv) :
    NetCall.getTokenAccountBalance (burnAta cfg) ∈ (burnStage cfg env).2 := by
  cases h : env.ataBalance with
  | none => simp [burnStage, burnAta, getAssociatedTokenAddress, h]
  | some amt =>
      by_cases hamt : 0 < amt
      · cases hb : env.burnOutcome <;>
          simp [burnStage, burnAta, getAssociatedTokenAddress, h, hamt, hb]
      · simp [burnStage, burnAta, getAssociatedTokenAddress, h, hamt]

/-- Helper: with a positive read balance, the burn stage's trace starts
with the balance read, a fresh blockhash fetch, and the submission of the
burn instruction over that amount. -/
theorem burnStage_positive_trace (cfg : Config) (env : NetEnv)
    (hpos : 0 < env.ataBalance.getD 0) :
    (burnStage cfg env).2.take 3 =
      [NetCall.getTokenAccountBalance (burnAta cfg), NetCall.getLatestBlockhash,
        NetCall.sendBurnTx (makeBurnInstruction (burnAta cfg) (.named cfg.cryptoMint)
          (.named cfg.burnWallet) (env.ataBalance.getD 0))] := by
  cases h : env.ataBalance with
  | none => rw [h] at hpos; simp at hpos
  | some amt =>
      rw [h] at hpos
      simp only [Option.getD_some] at hpos ⊢
      cases hb : env.burnOutcome <;>
        simp [burnStage, burnAta, getAssociatedTokenAddress, h, hpos, hb, List.take]

/-- Helper: with a zero (or unreadable) balance there is nothing to burn:
no burn is recorded and the only burn-stage call is the balance read. -/
theorem burnStage_zero (cfg : Config) (env : NetEnv)
    (hz : env.ataBalance.getD 0 = 0) :
    (burnStage cfg env).1 = (0, none) ∧
    (burnStage cfg env).2 = [NetCall.getTokenAccountBalance (burnAta cfg)] := by
  cases h : env.ataBalance with
  | none => simp [burnStage, burnAta, getAssociatedTokenAddress, h]
  | some amt =>
      rw [h] at hz
      simp only [Option.getD_some] at hz
      simp [burnStage, burnAta, getAssociatedTokenAddress, h, hz]

/-- Helper: when the burn submission fails, the exception is caught and the
burn outcome of the run records no burn. -/
theorem burnStage_sendFail (cfg : Config) (env : NetEnv)
    (hb : env.burnOutcome = .sendFail) :
    (burnStage cfg env).1 = (0, none) := by
  cases h : env.ataBalance with
  | none => simp [burnStage, h]
  | some amt =>
      by_cases hamt : 0 < amt
      · simp [burnStage, h, hamt, hb]
      · simp [burnStage, h, hamt]

/-- C7: every run that passes the threshold gate reaches the burn stage,
whatever the earlier legs did: the run completes as `done` with the swap
stage's entries and the burn stage's outcome, and the burn stage reads the
target ATA balance; with a positive re-read balance the burn instruction
over that amount is submitted right after a fresh blockhash fetch; with a
zero balance nothing is burnt and no further call is made; and a burn
submission failure leaves the recorded swap legs and the `done` (ok)
result unchanged, recording no burn. -/
theorem C7_burn_stage_always_reached (cfg : Config) (env : NetEnv)
    (hw : cfg.burnWallet ≠ "") (hm : cfg.cryptoMint ≠ "")
    (hfin : cfg.thresholdFinite = true) (ht : 0 < cfg.thresholdSol)
    (hsk : cfg.secretPubkey = some cfg.burnWallet)
    (hnb : ¬((env.lamports : ℚ) / (LAMPORTS_PER_SOL : ℚ) < cfg.thresholdSol)) :
    (runBurnSwap cfg env).1 =
      .done (swapStage cfg env).1 (burnStage cfg env).1.1 (burnStage cfg env).1.2 ∧
    NetCall.getTokenAccountBalance (burnAta cfg) ∈ (runBurnSwap cfg env).2 ∧
    (0 < env.ataBalance.getD 0 →
      (burnStage cfg env).2.take 3 =
        [NetCall.getTokenAccountBalance (burnAta cfg), NetCall.getLatestBlockhash,
          NetCall.sendBurnTx (makeBurnInstruction (burnAta cfg) (.named cfg.cryptoMint)
            (.named cfg.burnWallet) (env.ataBalance.getD 0))]) ∧
    (env.ataBalance.getD 0 = 0 →
      (burnStage cfg env).1 = (0, none) ∧
      (burnStage cfg env).2 = [NetCall.getTokenAccountBalance (burnAta cfg)]) ∧
    (env.burnOutcome = .sendFail →
      (runBurnSwap cfg env).1 = .done (swapStage cfg env).1 0 none) := by
  have hdone := runBurnSwap_done cfg env hw hm hfin ht hsk hnb
  refine ⟨by rw [hdone], ?_, burnStage_positive_trace cfg env, burnStage_zero cfg env, ?_⟩
  · rw [hdone]
    simp [List.mem_append, mem_burnStage_balRead cfg env]
  · intro hb
    rw [hdone]
    have := burnStage_sendFail cfg env hb
    simp [this]

/-- Environment for the C7 witness: balance above the threshold, a positive
target-token balance of 500, and a failing burn submission. -/
def envC7 : NetEnv where
  lamports := 30000000
  legOutcome := fun _ _ => .quoteFail
  tokenAccounts := fun _ => some []
  ataBalance := some 500
  blockhash := "bh"
  burnOutcome := .sendFail

/-- Witness for C7 in the C7 scenario. -/
theorem C7_burn_stage_always_reached_witness :
    (cfgW.burnWallet ≠ "" ∧ cfgW.cryptoMint ≠ "" ∧ cfgW.thresholdFinite = true ∧
      0 < cfgW.thresholdSol ∧ cfgW.secretPubkey = some cfgW.burnWallet ∧
      ¬((envC7.lamports : ℚ) / (LAMPORTS_PER_SOL : ℚ) < cfgW.thresholdSol)) ∧
    ((runBurnSwap cfgW envC7).1 =
      .done (swapStage cfgW envC7).1 (burnStage cfgW envC7).1.1 (burnStage cfgW envC7).1.2 ∧
    NetCall.getTokenAccountBalance (burnAta cfgW) ∈ (runBurnSwap cfgW envC7).2 ∧
    (0 < envC7.ataBalance.getD 0 →
      (burnStage cfgW envC7).2.take 3 =
        [NetCall.getTokenAccountBalance (burnAta cfgW), NetCall.getLatestBlockhash,
          NetCall.sendBurnTx (makeBurnInstruction (burnAta cfgW) (.named cfgW.cryptoMint)
            (.named cfgW.burnWallet) (envC7.ataBalance.getD 0))]) ∧
    (envC7.ataBalance.getD 0 = 0 →
      (burnStage cfgW envC7).1 = (0, none) ∧
      (burnStage cfgW envC7).2 = [NetCall.getTokenAccountBalance (burnAta cfgW)]) ∧
    (envC7.burnOutcome = .sendFail →
      (runBurnSwap cfgW envC7).1 = .done (swapStage cfgW envC7).1 0 none)) :=
  ⟨⟨by decide, by decide, rfl, by norm_num [cfgW], rfl,
      by norm_num [cfgW, envC7, LAMPORTS_PER_SOL]⟩,
    C7_burn_stage_always_reached cfgW envC7 (by decide) (by decide) rfl
      (by norm_num [cfgW]) rfl (by norm_num [cfgW, envC7, LAMPORTS_PER_SOL])⟩

/-! ### C8: unverified confirmation -/

/-- Helper: a native-coin leg over a positive spend amount whose quote
fails pushes nothing and issues only the quote request. -/
theorem solLeg_quoteFail (cfg : Config) (env : NetEnv) (amt : ℕ)
    (hamt : computeSwapLamports (env.lamports : ℤ)
      (Int.floor (cfg.feeReserveSol * (LAMPORTS_PER_SOL : ℚ))) cfg.safetyFraction = (amt : ℤ))
    (hpos : 0 < amt)
    (ho : env.legOutcome SOL_MINT_ADDRESS amt = .quoteFail) :
    solLeg cfg env = ([], [.quoteReq SOL_MINT_ADDRESS amt]) := by
  simp only [solLeg, hamt]
  rw [if_pos (by exact_mod_cast hpos)]
  simp only [Int.toNat_natCast]
  unfold doJupiterSwap
  rw [ho]

/-- Environment for the C8 scenario: one token holding M1; its leg
broadcasts but the confirmation check throws, and the burn confirmation
throws as well. -/
def envC8a : NetEnv where
  lamports := 30000000
  legOutcome := fun m _ => if m = "M1" then .confirmFail "sigM" else .quoteFail
  tokenAccounts := fun p =>
    if p = TOKEN_PROGRAM_ID then some [⟨.named "A1", "M1", 10, 6⟩] else some []
  ataBalance := some 500
  blockhash := "bh"
  burnOutcome := .confirmFail "sigB"

/-- The same scenario with both confirmations succeeding. -/
def envC8b : NetEnv where
  lamports := 30000000
  legOutcome := fun m _ => if m = "M1" then .success "sigM" else .quoteFail
  tokenAccounts := fun p =>
    if p = TOKEN_PROGRAM_ID then some [⟨.named "A1", "M1", 10, 6⟩] else some []
  ataBalance := some 500
  blockhash := "bh"
  burnOutcome := .success "sigB"

/-- C8 counterexample: a run in which the token leg's and the burn's
confirmations cannot be verified is identical — result and network trace —
to the run in which both confirmations succeed: the leg is recorded as a
plain success entry and the burn as a plain burn, with no uncertainty
marking anywhere. -/
theorem C8_counterexample :
    runBurnSwap cfgW envC8a = runBurnSwap cfgW envC8b ∧
    (runBurnSwap cfgW envC8a).1 = .done [⟨"M1", 10, "sigM"⟩] 500 (some "sigB") := by
  have hda := runBurnSwap_done cfgW envC8a (by decide) (by decide) rfl
    (by norm_num [cfgW]) rfl (by norm_num [cfgW, envC8a, LAMPORTS_PER_SOL])
  have hdb := runBurnSwap_done cfgW envC8b (by decide) (by decide) rfl
    (by norm_num [cfgW]) rfl (by norm_num [cfgW, envC8b, LAMPORTS_PER_SOL])
  have hsolA := solLeg_quoteFail cfgW envC8a 25500000
    (by norm_num [envC8a, cfgW, LAMPORTS_PER_SOL, computeSwapLamports])
    (by norm_num) (by decide)
  have hsolB := solLeg_quoteFail cfgW envC8b 25500000
    (by norm_num [envC8b, cfgW, LAMPORTS_PER_SOL, computeSwapLamports])
    (by norm_num) (by decide)
  have hswapA : swapStage cfgW envC8a =
      ([⟨"M1", 10, "sigM"⟩],
        [.quoteReq SOL_MINT_ADDRESS 25500000,
          .getTokenAccountsByOwner TOKEN_PROGRAM_ID,
          .getTokenAccountsByOwner TOKEN_2022_PROGRAM_ID,
          .quoteReq "M1" 10, .swapBuildReq "M1" 10, .sendTx "M1", .confirmTx "sigM"]) := by
    simp only [swapStage, hsolA]
    decide
  have hswapB : swapStage cfgW envC8b =
      ([⟨"M1", 10, "sigM"⟩],
        [.quoteReq SOL_MINT_ADDRESS 25500000,
          .getTokenAccountsByOwner TOKEN_PROGRAM_ID,
          .getTokenAccountsByOwner TOKEN_2022_PROGRAM_ID,
          .quoteReq "M1" 10, .swapBuildReq "M1" 10, .sendTx "M1", .confirmTx "sigM"]) := by
    simp only [swapStage, hsolB]
    decide
  have hburnA : burnStage cfgW envC8a = burnStage cfgW envC8b := by decide
  have hout : (burnStage cfgW envC8b).1 = (500, some "sigB") := by decide
  constructor
  · rw [hda, hdb, hswapA, hswapB, hburnA]
  · rw [hda, hswapA, hburnA, hout]

/-- C8 (amended): a swap leg whose broadcast succeeds but whose
confirmation cannot be verified is recorded as a plain success — identical
in result and trace to a fully confirmed leg, with no uncertainty marking —
and the transaction is not re-submitted (the leg issues exactly one send);
likewise the burn leg records the burn as if confirmed and sends exactly
once. -/
theorem C8_confirm_unverified_plain_success (cfg : Config) (env envS : NetEnv)
    (im sig bsig : String) (a amt : ℕ)
    (hleg : env.legOutcome im a = .confirmFail sig)
    (hlegS : envS.legOutcome im a = .success sig)
    (hburn : env.burnOutcome = .confirmFail bsig)
    (hata : env.ataBalance = some amt) (hamt : 0 < amt) :
    doJupiterSwap env im a =
      (.ok sig, [.quoteReq im a, .swapBuildReq im a, .sendTx im, .confirmTx sig]) ∧
    doJupiterSwap env im a = doJupiterSwap envS im a ∧
    ((doJupiterSwap env im a).2.countP fun c =>
      match c with | .sendTx _ => true | _ => false) = 1 ∧
    (burnStage cfg env).1 = (amt, some bsig) ∧
    ((burnStage cfg env).2.countP fun c =>
      match c with | .sendBurnTx _ => true | _ => false) = 1 := by
  have h1 : doJupiterSwap env im a =
      (.ok sig, [.quoteReq im a, .swapBuildReq im a, .sendTx im, .confirmTx sig]) := by
    unfold doJupiterSwap
    rw [hleg]
  have h2 : doJupiterSwap envS im a =
      (.ok sig, [.quoteReq im a, .swapBuildReq im a, .sendTx im, .confirmTx sig]) := by
    unfold doJupiterSwap
    rw [hlegS]
  have hb : burnStage cfg env =
      ((amt, some bsig),
        [.getTokenAccountBalance (burnAta cfg), .getLatestBlockhash,
          .sendBurnTx (makeBurnInstruction (burnAta cfg) (.named cfg.cryptoMint)
            (.named cfg.burnWallet) amt), .confirmBurnTx bsig]) := by
    simp [burnStage, burnAta, getAssociatedTokenAddress, hata, hamt, hburn]
  refine ⟨h1, h2 ▸ h1, ?_, ?_, ?_⟩
  · rw [h1]
    rfl
  · rw [hb]
  · rw [hb]
    rfl

/-- Witness for C8 (amended) in the C8 scenario. -/
theorem C8_confirm_unverified_plain_success_witness :
    (envC8a.legOutcome "M1" 10 = .confirmFail "sigM" ∧
      envC8b.legOutcome "M1" 10 = .success "sigM" ∧
      envC8a.burnOutcome = .confirmFail "sigB" ∧
      envC8a.ataBalance = some 500 ∧ 0 < 500) ∧
    (doJupiterSwap envC8a "M1" 10 =
      (.ok "sigM", [.quoteReq "M1" 10, .swapBuildReq "M1" 10, .sendTx "M1", .confirmTx "sigM"]) ∧
    doJupiterSwap envC8a "M1" 10 = doJupiterSwap envC8b "M1" 10 ∧
    ((doJupiterSwap envC8a "M1" 10).2.countP fun c =>
      match c with | .sendTx _ => true | _ => false) = 1 ∧
    (burnStage cfgW envC8a).1 = (500, some "sigB") ∧
    ((burnStage cfgW envC8a).2.countP fun c =>
      match c with | .sendBurnTx _ => true | _ => false) = 1) :=
  ⟨⟨by decide, by decide, by decide, by decide, by decide⟩,
    C8_confirm_unverified_plain_success cfgW envC8a envC8b "M1" "sigM" "sigB" 10 500
      (by decide) (by decide) (by decide) (by decide) (by decide)⟩

/-! ### C9: the burn targets only the standard-program associated token account -/

/-- Helper: the scan's network trace is exactly one enumeration per token
program, standard first, Token-2022 second, whatever each one returns. -/
theorem scan_programs (env : NetEnv) :
    (getAllTokenAccounts env).2 =
      [NetCall.getTokenAccountsByOwner TOKEN_PROGRAM_ID,
        NetCall.getTokenAccountsByOwner TOKEN_2022_PROGRAM_ID] := by
  unfold getAllTokenAccounts scanProgram
  cases h1 : env.tokenAccounts TOKEN_PROGRAM_ID <;>
    cases h2 : env.tokenAccounts TOKEN_2022_PROGRAM_ID <;> simp [h1, h2]

/-- Helper: a Jupiter swap leg never emits a burn submission. -/
theorem sendBurnTx_notin_doJupiterSwap (env : NetEnv) (im : String) (a : ℕ)
    (ix : TransactionInstruction) :
    NetCall.sendBurnTx ix ∉ (doJupiterSwap env im a).2 := by
  unfold doJupiterSwap
  cases h : env.legOutcome im a <;> simp

/-- Helper: the native-coin leg never emits a burn submission. -/
theorem sendBurnTx_notin_solLeg (cfg : Config) (env : NetEnv)
    (ix : TransactionInstruction) :
    NetCall.sendBurnTx ix ∉ (solLeg cfg env).2 := by
  unfold solLeg doJupiterSwap
  split_ifs
  · cases h : env.legOutcome SOL_MINT_ADDRESS
      (computeSwapLamports (env.lamports : ℤ)
        (Int.floor (cfg.feeReserveSol * (LAMPORTS_PER_SOL : ℚ))) cfg.safetyFraction).toNat <;>
      simp [h]
  · simp

/-- Helper: a token leg never emits a burn submission. -/
theorem sendBurnTx_notin_tokenSwapLeg (cfg : Config) (env : NetEnv) (ta : TokenHolding)
    (ix : TransactionInstruction) :
    NetCall.sendBurnTx ix ∉ (tokenSwapLeg cfg env ta).2 := by
  unfold tokenSwapLeg doJupiterSwap
  split_ifs <;>
    first
      | simp
      | (cases h : env.legOutcome ta.mint ta.amountRaw <;> simp [h])

/-- Helper: the token-leg loop never emits a burn submission. -/
theorem sendBurnTx_notin_tokenLegs (cfg : Config) (env : NetEnv)
    (ix : TransactionInstruction) :
    ∀ l : List TokenHolding, NetCall.sendBurnTx ix ∉ (tokenLegs cfg env l).2
  | [] => by simp [tokenLegs]
  | ta :: rest => by
      simp only [tokenLegs, List.mem_append, not_or]
      exact ⟨sendBurnTx_notin_tokenSwapLeg cfg env ta ix,
        sendBurnTx_notin_tokenLegs cfg env ix rest⟩

/-- Helper: any burn submission in the burn stage carries exactly the burn
instruction over the standard ATA and the re-read balance. -/
theorem burnStage_sendBurnTx (cfg : Config) (env : NetEnv)
    (ix : TransactionInstruction)
    (h : NetCall.sendBurnTx ix ∈ (burnStage cfg env).2) :
    ix = makeBurnInstruction (burnAta cfg) (.named cfg.cryptoMint) (.named cfg.burnWallet)
      (env.ataBalance.getD 0) := by
  cases hab : env.ataBalance with
  | none => simp [burnStage, hab] at h
  | some amt =>
      by_cases hamt : 0 < amt
      · cases hb : env.burnOutcome <;>
          · simp [burnStage, hab, hamt, hb, burnAta, getAssociatedTokenAddress] at h
            simp [hab, h, burnAta, getAssociatedTokenAddress]
      · simp [burnStage, hab, hamt] at h

/-- C9: a burn submission occurring anywhere in a run carries the burn
instruction addressed to the associated token account derived with the
standard token program id (its first account is that ATA), which differs
from the Token-2022 derivation of the same mint and owner — so holdings in
Token-2022 or non-associated accounts are never burned — even though the
inventory scan enumerates both the standard and the Token-2022 program. -/
theorem C9_burn_targets_standard_ata (cfg : Config) (env : NetEnv)
    (ix : TransactionInstruction)
    (h : NetCall.sendBurnTx ix ∈ (runBurnSwap cfg env).2) :
    ix = makeBurnInstruction (burnAta cfg) (.named cfg.cryptoMint) (.named cfg.burnWallet)
      (env.ataBalance.getD 0) ∧
    ix.keys.head? = some ⟨burnAta cfg, false, true⟩ ∧
    burnAta cfg = Addr.pda (.named cfg.burnWallet) TOKEN_PROGRAM_ID
      (.named cfg.cryptoMint) ASSOCIATED_TOKEN_PROGRAM_ID ∧
    burnAta cfg ≠ Addr.pda (.named cfg.burnWallet) TOKEN_2022_PROGRAM_ID
      (.named cfg.cryptoMint) ASSOCIATED_TOKEN_PROGRAM_ID ∧
    NetCall.getTokenAccountsByOwner TOKEN_PROGRAM_ID ∈ (getAllTokenAccounts env).2 ∧
    NetCall.getTokenAccountsByOwner TOKEN_2022_PROGRAM_ID ∈ (getAllTokenAccounts env).2 := by
  have hix : ix = makeBurnInstruction (burnAta cfg) (.named cfg.cryptoMint)
      (.named cfg.burnWallet) (env.ataBalance.getD 0) := by
    unfold runBurnSwap at h
    split at h
    · simp at h
    · split at h
      · simp at h
      · split at h
        · simp at h
        · split at h
          · simp at h
          · simp only [List.mem_append, List.mem_singleton] at h
            rcases h with ((h | h) | h)
            · simp at h
            · exfalso
              simp only [swapStage, List.mem_append] at h
              rcases h with ((h | h) | h)
              · exact sendBurnTx_notin_solLeg cfg env ix h
              · rw [scan_programs env] at h
                simp at h
              · exact sendBurnTx_notin_tokenLegs cfg env ix _ h
            · exact burnStage_sendBurnTx cfg env ix h
  refine ⟨hix, ?_, rfl, ?_, ?_, ?_⟩
  · rw [hix]; rfl
  · simp [burnAta, getAssociatedTokenAddress, TOKEN_PROGRAM_ID, TOKEN_2022_PROGRAM_ID]
  · rw [scan_programs env]; simp
  · rw [scan_programs env]; simp

/-- Environment for the C9 witness: a run that reaches the burn with a
target balance of 777. -/
def envC9 : NetEnv where
  lamports := 30000000
  legOutcome := fun _ _ => .quoteFail
  tokenAccounts := fun _ => some []
  ataBalance := some 777
  blockhash := "bh"
  burnOutcome := .success "sigB9"

/-- The burn instruction submitted in the C9 witness scenario. -/
def ixC9 : TransactionInstruction :=
  makeBurnInstruction (burnAta cfgW) (.named cfgW.cryptoMint) (.named cfgW.burnWallet) 777

/-- Witness for C9 in the C9 scenario. -/
theorem C9_burn_targets_standard_ata_witness :
    NetCall.sendBurnTx ixC9 ∈ (runBurnSwap cfgW envC9).2 ∧
    (ixC9 = makeBurnInstruction (burnAta cfgW) (.named cfgW.cryptoMint)
      (.named cfgW.burnWallet) (envC9.ataBalance.getD 0) ∧
    ixC9.keys.head? = some ⟨burnAta cfgW, false, true⟩ ∧
    burnAta cfgW = Addr.pda (.named cfgW.burnWallet) TOKEN_PROGRAM_ID
      (.named cfgW.cryptoMint) ASSOCIATED_TOKEN_PROGRAM_ID ∧
    burnAta cfgW ≠ Addr.pda (.named cfgW.burnWallet) TOKEN_2022_PROGRAM_ID
      (.named cfgW.cryptoMint) ASSOCIATED_TOKEN_PROGRAM_ID ∧
    NetCall.getTokenAccountsByOwner TOKEN_PROGRAM_ID ∈ (getAllTokenAccounts envC9).2 ∧
    NetCall.getTokenAccountsByOwner TOKEN_2022_PROGRAM_ID ∈ (getAllTokenAccounts envC9).2) := by
  have hmem : NetCall.sendBurnTx ixC9 ∈ (runBurnSwap cfgW envC9).2 := by
    rw [runBurnSwap_done cfgW envC9 (by decide) (by decide) rfl
      (by norm_num [cfgW]) rfl (by norm_num [cfgW, envC9, LAMPORTS_PER_SOL])]
    have hb : NetCall.sendBurnTx ixC9 ∈ (burnStage cfgW envC9).2 := by decide
    simp [List.mem_append, hb]
  exact ⟨hmem, C9_burn_targets_standard_ata cfgW envC9 ixC9 hmem⟩

end BurnWorker
